import Mathlib

/-!
Shallow embedding of `@here/harp-mapview/lib/PickHandler.ts` (harp.gl picking):
the feature-index resolver `getIntersectedFeatureIndex`, the per-hit result
construction of `intersectMapObjects` (including `addObjInfo` and the
geometry-type → pick-type switch), the broad-phase tile cull, the final
distance sort, and the query pipeline as a pure function of the scene state.

Modelling conventions:
* TypeScript `number | undefined` fields become `Option` fields.
* `intersect.object.userData.feature` becomes `Intersection.featureData`;
  `intersect.object instanceof MapViewPoints` becomes the Boolean field
  `isMapViewPoints` (the class test depends only on the object's class).
* Distances are modelled as `Int`: the claims concern ordering, and the
  comparator `a.distance - b.distance` orders numbers exactly by `≤`.
* JavaScript array indexing `a[i]` with a possibly negative integer index
  becomes `listGetInt` (negative or out-of-bounds yields `none`).
* `Array.prototype.sort` is stable (ECMAScript 2019), modelled by the stable
  insertion sort `sortByDistance`.
-/

/-- Pick object types, from the `PickObjectType` enum of PickHandler.ts. -/
inductive PickObjectType where
  | Unspecified
  | Point
  | Line
  | Area
  | Text
  | Icon
  | Object3D
deriving DecidableEq, Repr

/-- Geometry types, from the `GeometryType` enum of harp-datasource-protocol
(the members named in PickHandler's `switch`, plus `Other` standing for any
member the switch does not name and therefore sends to the `default` arm). -/
inductive GeometryType where
  | Point
  | Text
  | Line
  | ExtrudedLine
  | SolidLine
  | TextPath
  | Polygon
  | ExtrudedPolygon
  | Object3D
  | Other
deriving DecidableEq, Repr

/-- A 3D point (`THREE.Vec3`), coordinates as integers. -/
structure Vec3 where
  x : Int
  y : Int
  z : Int
deriving DecidableEq, Repr

/-- A rendering-technique descriptor (opaque to the picker). -/
structure Technique where
  id : Nat
deriving DecidableEq, Repr

/-- One per-feature metadata record of `TileFeatureData.objInfos`;
`featureIdVal` is what `getFeatureId` of harp-datasource-protocol extracts. -/
structure ObjInfo where
  featureIdVal : Option Int := none
  payload : Nat := 0
deriving DecidableEq, Repr

/-- Function `getFeatureId` from harp-datasource-protocol: extracts the feature id of a
metadata record. -/
def getFeatureId (o : ObjInfo) : Option Int :=
  o.featureIdVal

/-- Structure `TileFeatureData` as used by PickHandler.ts: geometry type, the `starts`
offsets delimiting features inside the batched buffer, and the parallel
`objInfos` metadata list. -/
structure TileFeatureData where
  geometryType : Option GeometryType := none
  starts : Option (List Nat) := none
  objInfos : Option (List ObjInfo) := none
deriving DecidableEq, Repr

/-- A raw hit (`THREE.Intersection`), together with the fields of
`intersect.object` that PickHandler reads: its class (`MapViewPoints`?) and its
`userData.feature` / `userData.technique`. -/
structure Intersection where
  distance : Int
  point : Vec3 := ⟨0, 0, 0⟩
  faceIndex : Option Nat := none
  index : Option Nat := none
  isMapViewPoints : Bool := false
  featureData : Option TileFeatureData := none
  technique : Option Technique := none
deriving DecidableEq, Repr

/-- Structure `PickResult` from PickHandler.ts. -/
structure PickResult where
  type : PickObjectType
  point : Vec3
  distance : Int
  featureId : Option Int := none
  intersection : Option Intersection := none
  technique : Option Technique := none
  userData : Option ObjInfo := none
deriving DecidableEq, Repr

/-- JavaScript array read `l[i]` with an arbitrary integer index:
negative or out-of-bounds gives `undefined`. -/
def listGetInt (l : List ObjInfo) (i : Int) : Option ObjInfo :=
  if i < 0 then none else l.get? i.toNat

/-- The loop of `getIntersectedFeatureIndex` (lines 86–92): iterate `starts`
in order, break at the first entry `> intersectIndex`, count the entries
seen before the break. -/
def scanStarts (starts : List Nat) (intersectIndex : Nat) : Nat :=
  match starts with
  | [] => 0
  | s :: rest =>
    if s > intersectIndex then 0 else scanStarts rest intersectIndex + 1

/-- The buffer-local index of `getIntersectedFeatureIndex` (lines 82–83):
`faceIndex * 3` when a face index is present, else the raw vertex index. -/
def bufferLocalIndex (intersect : Intersection) : Nat :=
  match intersect.faceIndex with
  | some f => f * 3
  | none => intersect.index.getD 0

/-- Function `getIntersectedFeatureIndex` from PickHandler.ts (lines 59–94). -/
def getIntersectedFeatureIndex (intersect : Intersection) : Option Int :=
  match intersect.featureData with
  | none => none
  | some featureData =>
    if intersect.isMapViewPoints then
      intersect.index.map (Int.ofNat)
    else
      match featureData.starts with
      | none => none
      | some starts =>
        if starts.length = 0 then none
        else if intersect.faceIndex = none ∧ intersect.index = none then none
        else if starts.length = 1 then some 0
        else
          some ((scanStarts starts (bufferLocalIndex intersect) : Int) - 1)

/-- Method `addObjInfo` from PickHandler.ts (lines 425–438), returning the value the
method stores into `pickResult.userData` (or `none` when it stores nothing or
the array read yields `undefined`). -/
def addObjInfo (featureData : TileFeatureData) (intersect : Intersection) :
    Option ObjInfo :=
  match featureData.objInfos with
  | none => none
  | some objInfos =>
    match getIntersectedFeatureIndex intersect with
    | none => none
    | some featureIndex => listGetInt objInfos featureIndex

/-- The `switch (featureData.geometryType)` of `intersectMapObjects`
(lines 260–280): the fixed geometry-type → pick-type table. `none` models an
`undefined` geometry type, which falls into the `default` arm. -/
def pickObjectTypeOf (g : Option GeometryType) : PickObjectType :=
  match g with
  | some GeometryType.Point => PickObjectType.Point
  | some GeometryType.Text => PickObjectType.Point
  | some GeometryType.Line => PickObjectType.Line
  | some GeometryType.ExtrudedLine => PickObjectType.Line
  | some GeometryType.SolidLine => PickObjectType.Line
  | some GeometryType.TextPath => PickObjectType.Line
  | some GeometryType.Polygon => PickObjectType.Area
  | some GeometryType.ExtrudedPolygon => PickObjectType.Area
  | some GeometryType.Object3D => PickObjectType.Object3D
  | some GeometryType.Other => PickObjectType.Unspecified
  | none => PickObjectType.Unspecified

/-- The body of the `for (const intersect of intersects)` loop of
`intersectMapObjects` (lines 225–284): the `PickResult` pushed for one raw
hit. A hit without feature metadata is pushed as-is (`Unspecified`, no
technique/userData/featureId); otherwise technique (when enabled), userData
(via `addObjInfo`), featureId (only for single-feature objects) and the
pick type are filled in. -/
def toPickResult (enablePickTechnique : Bool) (intersect : Intersection) :
    PickResult :=
  let base : PickResult :=
    { type := PickObjectType.Unspecified
      point := intersect.point
      distance := intersect.distance
      intersection := some intersect }
  match intersect.featureData with
  | none => base
  | some featureData =>
    { base with
      technique := if enablePickTechnique then intersect.technique else none
      userData := addObjInfo featureData intersect
      featureId :=
        match featureData.objInfos with
        | none => none
        | some objInfos =>
          if objInfos.length = 1 then
            match objInfos.head? with
            | some o => getFeatureId o
            | none => none
          else none
      type := pickObjectTypeOf featureData.geometryType }

/-- One rendered tile, as the picking code sees it: whether its oriented
bounding box (translated by the world center) intersects the pick ray, and
the raw hits the toolkit raycaster reports for its objects. -/
structure TileModel where
  obbIntersectsRay : Bool := false
  intersections : List Intersection := []
deriving DecidableEq, Repr

/-- One entry of `visibleTileSet.dataSourceTileList`: a data source name and
its rendered tiles. -/
structure DataSourceTileList where
  dataSourceName : String := ""
  renderedTiles : List TileModel := []
deriving DecidableEq, Repr

/-- The whole read-only input of one `intersectMapObjects` call: the label
hits the text renderer appends, the visible tiles per data source, the road
hits the road picker appends over all visible tiles (with its registered
data), and the two Boolean options of the handler. -/
structure SceneState where
  labelHits : List PickResult := []
  dataSourceTileList : List DataSourceTileList := []
  roadHits : List PickResult := []
  enableRoadPicking : Bool := true
  enablePickTechnique : Bool := false
deriving DecidableEq, Repr

/-- The broad-phase cull loop (lines 204–222): data sources named `"Terrain"`
or `"background"` are skipped entirely; for the rest, only tiles whose
oriented bounding box intersects the ray contribute their raw hits, in
iteration order. -/
def collectIntersects (tileList : List DataSourceTileList) :
    List Intersection :=
  (tileList.filter fun d =>
      d.dataSourceName ≠ "Terrain" ∧ d.dataSourceName ≠ "background").flatMap
    fun d =>
      (d.renderedTiles.filter fun t => t.obbIntersectsRay).flatMap
        fun t => t.intersections

/-- All results accumulated before the final sort, in push order: label hits,
then one `PickResult` per raw geometry hit, then (when road picking is
enabled) road hits. -/
def mergedResults (s : SceneState) : List PickResult :=
  (s.labelHits ++
      (collectIntersects s.dataSourceTileList).map
        (toPickResult s.enablePickTechnique)) ++
    (if s.enableRoadPicking then s.roadHits else [])

/-- Stable insertion of one result into a distance-sorted list (before the
first element of greater-or-equal distance). -/
def insertByDistance (a : PickResult) : List PickResult → List PickResult
  | [] => [a]
  | b :: l =>
    if a.distance ≤ b.distance then a :: b :: l else b :: insertByDistance a l

/-- The final sort `pickResults.sort((a, b) => a.distance - b.distance)` (lines 308–310):
a stable ascending sort by distance (ECMAScript `Array.prototype.sort` is
stable). -/
def sortByDistance : List PickResult → List PickResult
  | [] => []
  | a :: l => insertByDistance a (sortByDistance l)

/-- The query `intersectMapObjects` (lines 188–317) as a function of the scene state:
the returned list is the stable distance-sort of the accumulated results. -/
def intersectMapObjects (s : SceneState) : List PickResult :=
  sortByDistance (mergedResults s)

/-- A debug-overlay object added to `m_debugGroup` during a query. -/
inductive DebugObj where
  | worldOBBox
  | intersectDebug
  | ray
deriving DecidableEq, Repr

/-- The mutable state of a `PickHandler` that `intersectMapObjects` touches:
the children of the debug group `m_debugGroup` (the only field the method
writes; `m_plane` and `m_roadPicker` are `readonly`, and the road picker's
registered data is part of the scene state). -/
structure HandlerState where
  debugChildren : List DebugObj := []
deriving DecidableEq, Repr

/-- The query `intersectMapObjects` together with its effect on the handler state:
line 190 truncates the debug children (`children.length = 0`) before anything
is read, then debug boxes are added for culled-in tiles (line 218), debug
geometry for each metadata-carrying hit (line 241) and a debug ray when the
result list is nonempty (line 312). -/
def intersectMapObjectsRun (h : HandlerState) (s : SceneState) :
    List PickResult × HandlerState :=
  let cleared := { h with debugChildren := [] }
  let results := intersectMapObjects s
  let tileBoxes :=
    ((collectIntersects s.dataSourceTileList).map fun _ => DebugObj.worldOBBox)
  let hitDebug :=
    (collectIntersects s.dataSourceTileList).filterMap fun i =>
      if i.featureData = none then none else some DebugObj.intersectDebug
  let rayDebug := if results.length > 0 then [DebugObj.ray] else []
  (results,
    { cleared with debugChildren := tileBoxes ++ hitDebug ++ rayDebug })

/-- Modelled from the spec: the recommended binary-search replacement of the
linear scan (PickHandler line 85 is only `TODO: Implement binary search`; no
binary search exists in the source). Finds the first position in
`starts[lo..hi)` holding an offset greater than `target`, halving the range
each step. -/
def bsFirstGT (starts : List Nat) (target : Nat) (lo hi : Nat) : Nat :=
  if _h : lo < hi then
    if starts.getD ((lo + hi) / 2) 0 > target then
      bsFirstGT starts target lo ((lo + hi) / 2)
    else
      bsFirstGT starts target ((lo + hi) / 2 + 1) hi
  else lo
termination_by hi - lo
decreasing_by
  all_goals omega

/-- Modelled from the spec: binary search for the first offset greater than
the buffer-local index over the whole `starts` list, then step back one. -/
def binarySearchFeatureIndex (starts : List Nat) (target : Nat) : Int :=
  (bsFirstGT starts target 0 starts.length : Int) - 1

/-! ### Lemmas about the linear scan -/

theorem scanStarts_le_length (starts : List Nat) (idx : Nat) :
    scanStarts starts idx ≤ starts.length := by
  induction starts with
  | nil => simp [scanStarts]
  | cons s rest ih =>
    by_cases h : s > idx
    · simp [scanStarts, h]
    · simp only [scanStarts, h, if_false, List.length_cons]
      omega

theorem scanStarts_eq_countP (starts : List Nat) (idx : Nat)
    (hsort : starts.Pairwise (· ≤ ·)) :
    scanStarts starts idx = starts.countP (fun s => s ≤ idx) := by
  induction starts with
  | nil => rfl
  | cons s rest ih =>
    rcases List.pairwise_cons.mp hsort with ⟨hall, hrest⟩
    by_cases h : s > idx
    · have hzero : rest.countP (fun s => s ≤ idx) = 0 := by
        apply List.countP_eq_zero.mpr
        intro x hx
        have := hall x hx
        simp only [decide_eq_true_eq]
        omega
      have hs : ¬ (s ≤ idx) := by omega
      simp [scanStarts, h, List.countP_cons, hs, hzero]
    · have hs : s ≤ idx := by omega
      simp [scanStarts, h, List.countP_cons, hs, ih hrest]

theorem scanStarts_prefix_le (starts : List Nat) (idx : Nat) :
    ∀ i, i < scanStarts starts idx → starts.getD i 0 ≤ idx := by
  induction starts with
  | nil => intro i hi; simp [scanStarts] at hi
  | cons s rest ih =>
    intro i hi
    by_cases h : s > idx
    · simp [scanStarts, h] at hi
    · cases i with
      | zero => simpa using Nat.le_of_not_lt h
      | succ j =>
        simp only [scanStarts, h, if_false] at hi
        simpa using ih j (by omega)

theorem scanStarts_suffix_gt (starts : List Nat) (idx : Nat)
    (hsort : starts.Pairwise (· ≤ ·)) :
    ∀ i, scanStarts starts idx ≤ i → i < starts.length → idx < starts.getD i 0 := by
  induction starts with
  | nil => intro i _ hi; simp at hi
  | cons s rest ih =>
    rcases List.pairwise_cons.mp hsort with ⟨hall, hrest⟩
    intro i hk hi
    by_cases h : s > idx
    · cases i with
      | zero => simpa using h
      | succ j =>
        have hj : j < rest.length := by simpa using hi
        have hmem : rest.getD j 0 ∈ rest := by
          rw [List.getD_eq_getElem rest 0 hj]
          exact List.getElem_mem hj
        have := hall _ hmem
        simp only [List.getD_cons_succ]
        omega
    · simp only [scanStarts, h, if_false] at hk
      cases i with
      | zero => omega
      | succ j =>
        simp only [List.getD_cons_succ]
        exact ih hrest j (by omega) (by simpa using hi)

/-! ### Correctness of the spec-recommended binary search -/

theorem bsFirstGT_eq_of_inv (starts : List Nat) (target k : Nat)
    (hA : ∀ i, i < k → starts.getD i 0 ≤ target)
    (hB : ∀ i, k ≤ i → i < starts.length → target < starts.getD i 0) :
    ∀ n lo hi, hi - lo ≤ n → lo ≤ k → k ≤ hi → hi ≤ starts.length →
      bsFirstGT starts target lo hi = k := by
  intro n
  induction n with
  | zero =>
    intro lo hi h1 h2 h3 h4
    have hnot : ¬ lo < hi := by omega
    rw [bsFirstGT, dif_neg hnot]
    omega
  | succ n ih =>
    intro lo hi h1 h2 h3 h4
    rw [bsFirstGT]
    by_cases hlh : lo < hi
    · rw [dif_pos hlh]
      by_cases hmid : starts.getD ((lo + hi) / 2) 0 > target
      · rw [if_pos hmid]
        have hk : k ≤ (lo + hi) / 2 := by
          by_contra hc
          have := hA ((lo + hi) / 2) (by omega)
          omega
        exact ih lo ((lo + hi) / 2) (by omega) h2 hk (by omega)
      · rw [if_neg hmid]
        have hk : (lo + hi) / 2 + 1 ≤ k := by
          by_contra hc
          have := hB ((lo + hi) / 2) (by omega) (by omega)
          omega
        exact ih ((lo + hi) / 2 + 1) hi (by omega) hk h3 h4
    · rw [dif_neg hlh]
      omega

theorem bsFirstGT_eq_scanStarts (starts : List Nat) (target : Nat)
    (hsort : starts.Pairwise (· ≤ ·)) :
    bsFirstGT starts target 0 starts.length = scanStarts starts target :=
  bsFirstGT_eq_of_inv starts target (scanStarts starts target)
    (scanStarts_prefix_le starts target)
    (scanStarts_suffix_gt starts target hsort)
    starts.length 0 starts.length (by omega) (by omega)
    (scanStarts_le_length starts target) (le_refl _)

/-! ### Lemmas about the stable distance sort -/

theorem mem_insertByDistance (a x : PickResult) (l : List PickResult) :
    x ∈ insertByDistance a l ↔ x = a ∨ x ∈ l := by
  induction l with
  | nil => simp [insertByDistance]
  | cons b l ih =>
    by_cases h : a.distance ≤ b.distance
    · simp [insertByDistance, h]
    · simp [insertByDistance, h, ih]
      tauto

theorem perm_insertByDistance (a : PickResult) (l : List PickResult) :
    List.Perm (insertByDistance a l) (a :: l) := by
  induction l with
  | nil => simp [insertByDistance]
  | cons b l ih =>
    by_cases h : a.distance ≤ b.distance
    · simp [insertByDistance, h]
    · simp only [insertByDistance, h, if_false]
      exact List.Perm.trans (ih.cons b) (List.Perm.swap a b l)

theorem sortByDistance_perm (l : List PickResult) :
    List.Perm (sortByDistance l) l := by
  induction l with
  | nil => simp [sortByDistance]
  | cons a l ih =>
    exact List.Perm.trans (perm_insertByDistance a (sortByDistance l)) (ih.cons a)

theorem pairwise_insertByDistance (a : PickResult) (l : List PickResult)
    (h : l.Pairwise (fun x y => x.distance ≤ y.distance)) :
    (insertByDistance a l).Pairwise (fun x y => x.distance ≤ y.distance) := by
  induction l with
  | nil => simp [insertByDistance]
  | cons b l ih =>
    rcases List.pairwise_cons.mp h with ⟨hall, hl⟩
    by_cases hab : a.distance ≤ b.distance
    · simp only [insertByDistance, hab, if_true]
      refine List.pairwise_cons.mpr ⟨?_, h⟩
      intro x hx
      rcases List.mem_cons.mp hx with rfl | hx
      · exact hab
      · exact le_trans hab (hall x hx)
    · simp only [insertByDistance, hab, if_false]
      refine List.pairwise_cons.mpr ⟨?_, ih hl⟩
      intro x hx
      rcases (mem_insertByDistance a x l).mp hx with rfl | hx
      · omega
      · exact hall x hx

theorem sortByDistance_pairwise (l : List PickResult) :
    (sortByDistance l).Pairwise (fun x y => x.distance ≤ y.distance) := by
  induction l with
  | nil => simp [sortByDistance]
  | cons a l ih => exact pairwise_insertByDistance a (sortByDistance l) ih

theorem filter_insertByDistance (a : PickResult) (l : List PickResult) (d : Int) :
    (insertByDistance a l).filter (fun x => x.distance == d) =
      if a.distance == d then a :: l.filter (fun x => x.distance == d)
      else l.filter (fun x => x.distance == d) := by
  induction l with
  | nil =>
    by_cases had : a.distance = d
    · have had' : (a.distance == d) = true := by simpa using had
      simp [insertByDistance, List.filter, had']
    · have had' : (a.distance == d) = false := by simpa using had
      simp [insertByDistance, List.filter, had']
  | cons b l ih =>
    by_cases hab : a.distance ≤ b.distance
    · have heq : insertByDistance a (b :: l) = a :: b :: l := by
        simp [insertByDistance, hab]
      rw [heq, List.filter_cons]
    · have heq : insertByDistance a (b :: l) = b :: insertByDistance a l := by
        simp [insertByDistance, hab]
      have hba : b.distance < a.distance := by omega
      rw [heq, List.filter_cons, ih]
      by_cases hbd : b.distance = d
      · have hbd' : (b.distance == d) = true := by simpa using hbd
        have had' : (a.distance == d) = false := by
          simp only [beq_eq_false_iff_ne, ne_eq]
          omega
        simp [hbd', had', List.filter_cons]
      · have hbd' : (b.distance == d) = false := by simpa using hbd
        by_cases had : a.distance = d
        · have had' : (a.distance == d) = true := by simpa using had
          simp [hbd', had', List.filter_cons]
        · have had' : (a.distance == d) = false := by simpa using had
          simp [hbd', had', List.filter_cons]

theorem filter_sortByDistance (l : List PickResult) (d : Int) :
    (sortByDistance l).filter (fun x => x.distance == d) =
      l.filter (fun x => x.distance == d) := by
  induction l with
  | nil => rfl
  | cons a l ih =>
    by_cases had : a.distance = d
    · have had' : (a.distance == d) = true := by simpa using had
      simp [sortByDistance, filter_insertByDistance, had', List.filter_cons, ih]
    · have had' : (a.distance == d) = false := by simpa using had
      simp [sortByDistance, filter_insertByDistance, had', List.filter_cons, ih]

/-! ### A shared unfolding lemma for the resolver's scan branch -/

theorem getIntersectedFeatureIndex_eq_scan (i : Intersection)
    (fd : TileFeatureData) (starts : List Nat)
    (hfd : i.featureData = some fd) (hpts : i.isMapViewPoints = false)
    (hstarts : fd.starts = some starts) (hlen : 2 ≤ starts.length)
    (hidx : i.faceIndex ≠ none ∨ i.index ≠ none) :
    getIntersectedFeatureIndex i =
      some ((scanStarts starts (bufferLocalIndex i) : Int) - 1) := by
  have h0 : ¬ starts.length = 0 := by omega
  have h1 : ¬ starts.length = 1 := by omega
  have hni : ¬ (i.faceIndex = none ∧ i.index = none) := by tauto
  simp [getIntersectedFeatureIndex, hfd, hpts, hstarts, h0, h1, hni]

/-- Claim C1: for every query, the returned list is sorted ascending by distance
(adjacent pairs satisfy `distance ≤ distance`), and results of equal distance
keep their insertion order: the output filtered to any fixed distance equals
the pre-sort accumulator (label hits, then geometry hits, then road hits)
filtered to that distance, so at ties label hits precede geometry hits
precede road hits. -/
theorem intersectMapObjects_sorted_and_stable (s : SceneState) :
    List.Chain' (fun a b => a.distance ≤ b.distance) (intersectMapObjects s) ∧
      ∀ d : Int,
        (intersectMapObjects s).filter (fun x => x.distance == d) =
          (mergedResults s).filter (fun x => x.distance == d) :=
  ⟨(sortByDistance_pairwise (mergedResults s)).chain',
    fun d => filter_sortByDistance (mergedResults s) d⟩

/-- Claim C2: for a strictly ascending `starts` with at least two entries and a hit
carrying a face or vertex index (on a non-point-primitive object with feature
metadata), the resolver returns the count of `starts` entries that are `≤` the
buffer-local index, minus one. -/
theorem getIntersectedFeatureIndex_eq_countP (i : Intersection)
    (fd : TileFeatureData) (starts : List Nat)
    (hfd : i.featureData = some fd) (hpts : i.isMapViewPoints = false)
    (hstarts : fd.starts = some starts) (hlen : 2 ≤ starts.length)
    (hasc : starts.Pairwise (· < ·))
    (hidx : i.faceIndex ≠ none ∨ i.index ≠ none) :
    getIntersectedFeatureIndex i =
      some ((starts.countP (fun s => s ≤ bufferLocalIndex i) : Int) - 1) := by
  rw [getIntersectedFeatureIndex_eq_scan i fd starts hfd hpts hstarts hlen hidx,
    scanStarts_eq_countP starts (bufferLocalIndex i)
      (hasc.imp fun h => le_of_lt h)]

def startsC2 : TileFeatureData :=
  { starts := some [0, 10, 25] }

def hitC2v (v : Nat) : Intersection :=
  { distance := 0, index := some v, featureData := some startsC2 }

def hitC2f4 : Intersection :=
  { distance := 0, faceIndex := some 4, featureData := some startsC2 }

/-- Witness for C2 at the spec's concrete inputs: `starts = [0,10,25]` with
buffer-local index 12 (vertex index 12, and face index 4) gives feature 1,
index 0 gives 0, index 30 gives 2, and boundary index 10 gives 1. -/
theorem getIntersectedFeatureIndex_eq_countP_witness :
    ([0, 10, 25].Pairwise (· < ·)) ∧
      getIntersectedFeatureIndex (hitC2v 12) = some 1 ∧
      getIntersectedFeatureIndex (hitC2v 0) = some 0 ∧
      getIntersectedFeatureIndex (hitC2v 30) = some 2 ∧
      getIntersectedFeatureIndex (hitC2v 10) = some 1 ∧
      getIntersectedFeatureIndex hitC2f4 = some 1 :=
  ⟨by decide,
    (getIntersectedFeatureIndex_eq_countP (hitC2v 12) startsC2 [0, 10, 25]
      rfl rfl rfl (by decide) (by decide) (by decide)).trans (by decide),
    (getIntersectedFeatureIndex_eq_countP (hitC2v 0) startsC2 [0, 10, 25]
      rfl rfl rfl (by decide) (by decide) (by decide)).trans (by decide),
    (getIntersectedFeatureIndex_eq_countP (hitC2v 30) startsC2 [0, 10, 25]
      rfl rfl rfl (by decide) (by decide) (by decide)).trans (by decide),
    (getIntersectedFeatureIndex_eq_countP (hitC2v 10) startsC2 [0, 10, 25]
      rfl rfl rfl (by decide) (by decide) (by decide)).trans (by decide),
    (getIntersectedFeatureIndex_eq_countP hitC2f4 startsC2 [0, 10, 25]
      rfl rfl rfl (by decide) (by decide) (by decide)).trans (by decide)⟩

/-- Claim C3: the spec-recommended binary search (first offset greater than the
target, then step back one) agrees with the implemented linear scan
(`scanStarts`, the loop of `getIntersectedFeatureIndex`, whose count is also
decremented by one) on every monotonically ascending `starts` list and every
buffer-local index. -/
theorem binarySearchFeatureIndex_eq_linear_scan (starts : List Nat)
    (target : Nat) (hsort : starts.Pairwise (· ≤ ·)) :
    binarySearchFeatureIndex starts target =
      (scanStarts starts target : Int) - 1 := by
  unfold binarySearchFeatureIndex
  rw [bsFirstGT_eq_scanStarts starts target hsort]

/-- Witness for C3: the binary search agrees with the linear scan on
`starts = [0,10,25]` at the boundary index 10. -/
theorem binarySearchFeatureIndex_eq_linear_scan_witness :
    ([0, 10, 25].Pairwise (· ≤ ·)) ∧
      binarySearchFeatureIndex [0, 10, 25] 10 =
        (scanStarts [0, 10, 25] 10 : Int) - 1 :=
  ⟨by decide,
    binarySearchFeatureIndex_eq_linear_scan [0, 10, 25] 10 (by decide)⟩

/-- Claim C4: a geometry hit with absent feature metadata, or (on a
non-point-primitive object) with `starts` undefined or empty or neither a
face nor a vertex index, resolves to `undefined`, and the emitted
`PickResult` carries no `userData`. -/
theorem unresolved_feature_no_userData (i : Intersection) (e : Bool)
    (h : i.featureData = none ∨
      i.isMapViewPoints = false ∧
        ∃ fd, i.featureData = some fd ∧
          (fd.starts = none ∨ fd.starts = some [] ∨
            i.faceIndex = none ∧ i.index = none)) :
    getIntersectedFeatureIndex i = none ∧ (toPickResult e i).userData = none := by
  rcases h with hnone | ⟨hpts, fd, hfd, hcase⟩
  · constructor
    · simp [getIntersectedFeatureIndex, hnone]
    · simp [toPickResult, hnone]
  · have hres : getIntersectedFeatureIndex i = none := by
      rcases hcase with hs | hs | ⟨hf, hi⟩
      · simp [getIntersectedFeatureIndex, hfd, hpts, hs]
      · simp [getIntersectedFeatureIndex, hfd, hpts, hs]
      · cases hstarts : fd.starts with
        | none => simp [getIntersectedFeatureIndex, hfd, hpts, hstarts]
        | some starts =>
          by_cases h0 : starts.length = 0
          · simp [getIntersectedFeatureIndex, hfd, hpts, hstarts, h0]
          · simp [getIntersectedFeatureIndex, hfd, hpts, hstarts, h0, hf, hi]
    have hadd : addObjInfo fd i = none := by
      unfold addObjInfo
      cases fd.objInfos with
      | none => rfl
      | some objInfos => rw [hres]
    exact ⟨hres, by simp [toPickResult, hfd, hadd]⟩

def fdC4 : TileFeatureData :=
  { starts := some [], objInfos := some [{ featureIdVal := some 9 }] }

def hitC4 : Intersection :=
  { distance := 0, index := some 5, featureData := some fdC4 }

/-- Witness for C4: a hit whose metadata has an empty `starts` list resolves
to `undefined` and its `PickResult` has no `userData`, even though `objInfos`
is present. -/
theorem unresolved_feature_no_userData_witness :
    (hitC4.featureData = some fdC4 ∧ fdC4.starts = some ([] : List Nat)) ∧
      getIntersectedFeatureIndex hitC4 = none ∧
        (toPickResult false hitC4).userData = none :=
  ⟨⟨rfl, rfl⟩,
    unresolved_feature_no_userData hitC4 false
      (Or.inr ⟨rfl, fdC4, rfl, Or.inr (Or.inl rfl)⟩)⟩

/-- Claim C5: the pick type of a metadata-carrying hit is the fixed table of the
metadata's geometry type — Point/Text ↦ Point; Line, ExtrudedLine, SolidLine,
TextPath ↦ Line; Polygon, ExtrudedPolygon ↦ Area; Object3D ↦ Object3D;
everything else ↦ Unspecified — so a polygon hit yields Area, never Line. -/
theorem toPickResult_type_is_table (i : Intersection) (fd : TileFeatureData)
    (e : Bool) (h : i.featureData = some fd) :
    (toPickResult e i).type = pickObjectTypeOf fd.geometryType ∧
      pickObjectTypeOf (some GeometryType.Point) = PickObjectType.Point ∧
      pickObjectTypeOf (some GeometryType.Text) = PickObjectType.Point ∧
      pickObjectTypeOf (some GeometryType.Line) = PickObjectType.Line ∧
      pickObjectTypeOf (some GeometryType.ExtrudedLine) = PickObjectType.Line ∧
      pickObjectTypeOf (some GeometryType.SolidLine) = PickObjectType.Line ∧
      pickObjectTypeOf (some GeometryType.TextPath) = PickObjectType.Line ∧
      pickObjectTypeOf (some GeometryType.Polygon) = PickObjectType.Area ∧
      pickObjectTypeOf (some GeometryType.ExtrudedPolygon) = PickObjectType.Area ∧
      pickObjectTypeOf (some GeometryType.Object3D) = PickObjectType.Object3D ∧
      pickObjectTypeOf (some GeometryType.Other) = PickObjectType.Unspecified ∧
      pickObjectTypeOf none = PickObjectType.Unspecified ∧
      pickObjectTypeOf (some GeometryType.Polygon) ≠ PickObjectType.Line :=
  ⟨by simp [toPickResult, h], by decide⟩

def fdC5 : TileFeatureData :=
  { geometryType := some GeometryType.Polygon }

def hitC5 : Intersection :=
  { distance := 0, featureData := some fdC5 }

/-- Witness for C5: a polygon-geometry hit is classified as Area. -/
theorem toPickResult_type_is_table_witness :
    (hitC5.featureData = some fdC5 ∧
        fdC5.geometryType = some GeometryType.Polygon) ∧
      (toPickResult false hitC5).type = pickObjectTypeOf fdC5.geometryType :=
  ⟨⟨rfl, rfl⟩, (toPickResult_type_is_table hitC5 fdC5 false rfl).1⟩

/-- Claim C6: when no tile of a non-excluded data source (tiles of the `"Terrain"`
and `"background"` sources are always skipped) has its bounding volume hit by
the ray, no raw hit is collected — so no precise raycast result ever enters
the query — and the returned list is a reordering of the label hits and
(when road picking is enabled) the road hits alone: zero geometry-category
results. -/
theorem ray_misses_tiles_no_geometry_results (s : SceneState)
    (h : ∀ d ∈ s.dataSourceTileList, d.dataSourceName ≠ "Terrain" →
        d.dataSourceName ≠ "background" →
        ∀ t ∈ d.renderedTiles, t.obbIntersectsRay = false) :
    collectIntersects s.dataSourceTileList = [] ∧
      List.Perm (intersectMapObjects s)
        (s.labelHits ++ if s.enableRoadPicking then s.roadHits else []) := by
  have hc : collectIntersects s.dataSourceTileList = [] := by
    unfold collectIntersects
    rw [List.eq_nil_iff_forall_not_mem]
    intro x hx
    rw [List.mem_flatMap] at hx
    obtain ⟨d, hd, hx2⟩ := hx
    rw [List.mem_filter] at hd
    obtain ⟨hd1, hd2⟩ := hd
    have hd2' := of_decide_eq_true hd2
    rw [List.mem_flatMap] at hx2
    obtain ⟨t, ht, _⟩ := hx2
    rw [List.mem_filter] at ht
    obtain ⟨ht1, ht2⟩ := ht
    have hfalse := h d hd1 hd2'.1 hd2'.2 t ht1
    rw [hfalse] at ht2
    exact absurd ht2 (by simp)
  have hm : mergedResults s =
      s.labelHits ++ (if s.enableRoadPicking then s.roadHits else []) := by
    unfold mergedResults
    rw [hc]
    simp
  have hperm : List.Perm (intersectMapObjects s) (mergedResults s) :=
    sortByDistance_perm (mergedResults s)
  rw [hm] at hperm
  exact ⟨hc, hperm⟩

def sceneC6 : SceneState :=
  { labelHits := [{ type := PickObjectType.Text, point := ⟨0, 0, 0⟩, distance := 4 }],
    dataSourceTileList :=
      [{ dataSourceName := "omv",
         renderedTiles := [{ obbIntersectsRay := false,
                             intersections := [{ distance := 1 }] }] },
       { dataSourceName := "Terrain",
         renderedTiles := [{ obbIntersectsRay := true,
                             intersections := [{ distance := 2 }] }] }],
    roadHits := [{ type := PickObjectType.Line, point := ⟨0, 0, 0⟩, distance := 3 }] }

/-- Witness for C6: a scene where the only ordinary tile's bounding volume
misses the ray (a `"Terrain"` tile is hit but is skipped); only the label hit
and the road hit survive. -/
theorem ray_misses_tiles_no_geometry_results_witness :
    (∀ d ∈ sceneC6.dataSourceTileList, d.dataSourceName ≠ "Terrain" →
        d.dataSourceName ≠ "background" →
        ∀ t ∈ d.renderedTiles, t.obbIntersectsRay = false) ∧
      collectIntersects sceneC6.dataSourceTileList = [] ∧
        List.Perm (intersectMapObjects sceneC6)
          (sceneC6.labelHits ++
            if sceneC6.enableRoadPicking then sceneC6.roadHits else []) :=
  ⟨by decide, ray_misses_tiles_no_geometry_results sceneC6 (by decide)⟩

/-- Claim C7: a hit on a point-primitive object (`MapViewPoints`) with feature
metadata resolves to the raw point index, without consulting `starts` (which
may even be present). -/
theorem mapViewPoints_featureIndex_raw (i : Intersection)
    (fd : TileFeatureData) (n : Nat)
    (hfd : i.featureData = some fd) (hpts : i.isMapViewPoints = true)
    (hidx : i.index = some n) :
    getIntersectedFeatureIndex i = some (n : Int) := by
  simp [getIntersectedFeatureIndex, hfd, hpts, hidx]

def fdC7 : TileFeatureData :=
  { starts := some [0, 10], objInfos := some [{}, {}] }

def hitC7 : Intersection :=
  { distance := 0, index := some 7, isMapViewPoints := true,
    featureData := some fdC7 }

/-- Witness for C7: a point-primitive hit with point index 7 resolves to 7
even though its metadata carries `starts = [0, 10]`. -/
theorem mapViewPoints_featureIndex_raw_witness :
    (hitC7.isMapViewPoints = true ∧ fdC7.starts = some [0, 10]) ∧
      getIntersectedFeatureIndex hitC7 = some 7 :=
  ⟨⟨rfl, rfl⟩, mapViewPoints_featureIndex_raw hitC7 fdC7 7 rfl rfl rfl⟩

/-- Claim C8: a hit with feature metadata whose `starts` has exactly one entry
resolves to feature index 0, whatever the buffer-local index is — including
one smaller than the single offset. -/
theorem single_start_resolves_zero (i : Intersection) (fd : TileFeatureData)
    (s0 : Nat) (hfd : i.featureData = some fd)
    (hpts : i.isMapViewPoints = false) (hstarts : fd.starts = some [s0])
    (hidx : i.faceIndex ≠ none ∨ i.index ≠ none) :
    getIntersectedFeatureIndex i = some 0 := by
  have hni : ¬ (i.faceIndex = none ∧ i.index = none) := by tauto
  simp [getIntersectedFeatureIndex, hfd, hpts, hstarts, hni]

def fdC8 : TileFeatureData :=
  { starts := some [5] }

def hitC8 : Intersection :=
  { distance := 0, index := some 2, featureData := some fdC8 }

/-- Witness for C8: `starts = [5]` with vertex index 2 (smaller than the
single offset) still resolves to feature index 0. -/
theorem single_start_resolves_zero_witness :
    (fdC8.starts = some [5] ∧ bufferLocalIndex hitC8 < 5) ∧
      getIntersectedFeatureIndex hitC8 = some 0 :=
  ⟨⟨rfl, by decide⟩,
    single_start_resolves_zero hitC8 fdC8 5 rfl rfl rfl (by decide)⟩

/-- Claim C9: the query is a pure function of the scene state: two runs from any
two handler states (the debug group is the only state the method writes, and
it is cleared before being read) return the same result list, and a repeated
run from the state the first run left behind returns the same list again. -/
theorem intersectMapObjects_deterministic (s : SceneState)
    (h1 h2 : HandlerState) :
    (intersectMapObjectsRun h1 s).1 = (intersectMapObjectsRun h2 s).1 ∧
      (intersectMapObjectsRun (intersectMapObjectsRun h1 s).2 s).1 =
        (intersectMapObjectsRun h1 s).1 :=
  ⟨rfl, rfl⟩

/-- Claim C10: with at least two `starts` entries all strictly greater than the
buffer-local index (possible when `starts[0] > 0`), the resolver returns
`-1` — not `undefined` — and the `objInfos[-1]` lookup yields no record, so
the emitted `PickResult` has no `userData`; being a total function, the
query completes normally. -/
theorem starts_all_greater_resolves_minus_one (i : Intersection)
    (fd : TileFeatureData) (starts : List Nat) (e : Bool)
    (hfd : i.featureData = some fd) (hpts : i.isMapViewPoints = false)
    (hstarts : fd.starts = some starts) (hlen : 2 ≤ starts.length)
    (hidx : i.faceIndex ≠ none ∨ i.index ≠ none)
    (hgt : ∀ x ∈ starts, bufferLocalIndex i < x) :
    getIntersectedFeatureIndex i = some (-1) ∧
      (toPickResult e i).userData = none := by
  have hscan : scanStarts starts (bufferLocalIndex i) = 0 := by
    cases starts with
    | nil => rfl
    | cons s rest =>
      have := hgt s (by simp)
      simp [scanStarts]
      omega
  have hres :=
    getIntersectedFeatureIndex_eq_scan i fd starts hfd hpts hstarts hlen hidx
  rw [hscan] at hres
  norm_num at hres
  have hadd : addObjInfo fd i = none := by
    unfold addObjInfo
    cases fd.objInfos with
    | none => rfl
    | some objInfos =>
      rw [hres]
      simp [listGetInt]
  exact ⟨hres, by simp [toPickResult, hfd, hadd]⟩

def fdC10 : TileFeatureData :=
  { starts := some [5, 9],
    objInfos := some [{ featureIdVal := some 1 }, { featureIdVal := some 2 }] }

def hitC10 : Intersection :=
  { distance := 0, index := some 3, featureData := some fdC10 }

/-- Witness for C10: `starts = [5, 9]` with vertex index 3 resolves to `-1`
and the emitted result has no `userData` although `objInfos` is present. -/
theorem starts_all_greater_resolves_minus_one_witness :
    (fdC10.starts = some [5, 9] ∧
        (∀ x ∈ [5, 9], bufferLocalIndex hitC10 < x)) ∧
      getIntersectedFeatureIndex hitC10 = some (-1) ∧
        (toPickResult false hitC10).userData = none :=
  ⟨⟨rfl, by decide⟩,
    starts_all_greater_resolves_minus_one hitC10 fdC10 [5, 9] false
      rfl rfl rfl (by decide) (by decide) (by decide)⟩
